import Mathlib

/-!
Verification of the session / client-repository core of a multiplayer game
server (`src/engine/game_server/src/client.rs` and the observer channel
protocol in `src/engine/server_util/src/observer.rs`).

The embedding models:
* the per-client connection state machine (`ClientStatus`),
* the client record (`PlayerClientData`, here `Client`) and player table,
* `ClientRepo::register`, `ClientRepo::unregister`, `ClientRepo::prune`,
* `ClientRepo::update` (the tick broadcaster fan-out),
* `ClientRepo::update_to_database` (the session persister),
* the request handlers `set_alias`, `tally_fps`, `trace`,
* the `Authenticate` handler.

Machine times (`Instant`) are naturals; channels are identified by naturals
(channel identity is all `same_channel` compares); `f32` values are modelled
by a variant type separating finite values (as rationals) from NaN and the
infinities, which is exactly the distinction `f32::is_finite` draws.
-/

namespace GameServer

/-- Channels are identified by identity only (`same_channel` in the source). -/
abbrev Channel := Nat

/-- Machine time (`Instant`), as an abstract tick count. -/
abbrev Instant := Nat

/-- Connection state machine of a client (`ClientStatus<G>` in client.rs). -/
inductive ClientStatus where
  /-- Initial state; can be forgotten after expiry. -/
  | pending (expiry : Instant)
  /-- Connected and in game; holds the one outbound channel. -/
  | connected (observer : Channel)
  /-- Disconnected but still in game. -/
  | limbo (expiry : Instant)
  /-- Disconnected and out of game; can be forgotten after expiry. -/
  | stale (expiry : Instant)
  deriving DecidableEq, Repr

/-- Durable store record (`SessionItem` in server_util/database_schema). -/
structure SessionItem where
  aliasName : String
  arena_id : Nat
  date_created : Nat
  date_previous : Option Nat
  date_renewed : Nat
  date_terminated : Option Nat
  game_id : Nat
  player_id : Nat
  plays : Nat
  previous_id : Option Nat
  referrer : Option Nat
  user_agent_id : Option Nat
  server_id : Nat
  session_id : Nat
  deriving DecidableEq, Repr

/-- Accumulated per-client counters (`ClientMetricData<G>`); finite `f32`
values are rationals. -/
structure Metrics where
  date_created : Nat
  date_previous : Option Nat
  date_renewed : Nat
  session_id_previous : Option Nat
  referrer : Option Nat
  user_agent_id : Option Nat
  region_id : Option Nat
  plays : Nat
  previous_plays : Nat
  fps : Option ℚ
  rtt : Option Nat
  deriving DecidableEq, Repr

/-- Per-client record (`PlayerClientData<G>` in client.rs).  The opaque
per-subsystem view state (`chat`, `team`, game `data`) is modelled just
precisely enough to observe the resets `register` performs. -/
structure Client where
  session_id : Nat
  aliasName : String
  status : ClientStatus
  session_item : Option SessionItem
  metrics : Metrics
  reported : List Nat
  traces : Nat
  chatState : Bool
  teamState : Bool
  gameData : Nat
  deriving DecidableEq, Repr

/-- One entry of the player table (`PlayerData`): a bot has no client
record; `alive_duration` (milliseconds) is the game-derived liveness the
source queries through `PlayerData::alive_duration`. -/
structure PlayerData where
  player_id : Nat
  alive_duration : Option Nat
  client : Option Client
  deriving DecidableEq, Repr

/-- First record with the given id (`PlayerRepo::get` / `borrow_player_mut`). -/
def findPlayer : List PlayerData → Nat → Option PlayerData
  | [], _ => none
  | p :: rest, pid => if p.player_id = pid then some p else findPlayer rest pid

/-- The client record of the given player, if any. -/
def findClient (players : List PlayerData) (pid : Nat) : Option Client :=
  (findPlayer players pid).bind (·.client)

/-- Mutate (only) the first record with the given id, through its client. -/
def modifyClient (players : List PlayerData) (pid : Nat) (f : Client → Client) :
    List PlayerData :=
  match players with
  | [] => []
  | p :: rest =>
      if p.player_id = pid then { p with client := p.client.map f } :: rest
      else p :: modifyClient rest pid f

def statusOf (players : List PlayerData) (pid : Nat) : Option ClientStatus :=
  (findClient players pid).map (·.status)

def tracesOf (players : List PlayerData) (pid : Nat) : Option Nat :=
  (findClient players pid).map (·.traces)

def aliasOf (players : List PlayerData) (pid : Nat) : Option String :=
  (findClient players pid).map (·.aliasName)

def fpsOf (players : List PlayerData) (pid : Nat) : Option (Option ℚ) :=
  (findClient players pid).map (·.metrics.fps)

/-- Core of `ClientRepo::unregister`: transition `Connected{c}` with
`c == channel` to `Limbo{now + LIMBO}`, anything else unchanged. -/
def unregisterClient (ch : Channel) (now limboDur : Nat) (c : Client) : Client :=
  match c.status with
  | .connected obs =>
      if obs = ch then { c with status := .limbo (now + limboDur) } else c
  | _ => c

/-- Embeds `ClientRepo::unregister` on the player table. -/
def unregister (players : List PlayerData) (pid : Nat) (ch : Channel)
    (now limboDur : Nat) : List PlayerData :=
  match findPlayer players pid with
  | none => players
  | some p =>
      match p.client with
      | none => players
      | some _ => modifyClient players pid (unregisterClient ch now limboDur)

theorem modifyClient_congr (players : List PlayerData) (pid : Nat)
    (f : Client → Client) (h : ∀ c, f c = c) :
    modifyClient players pid f = players := by
  induction players with
  | nil => rfl
  | cons p rest ih =>
      simp only [modifyClient]
      by_cases hp : p.player_id = pid
      · rw [if_pos hp]
        have hc : p.client.map f = p.client := by
          cases p.client with
          | none => rfl
          | some c => simp [h c]
        rw [hc]
      · rw [if_neg hp, ih]

theorem findPlayer_modifyClient (players : List PlayerData) (pid : Nat)
    (f : Client → Client) :
    findPlayer (modifyClient players pid f) pid
      = (findPlayer players pid).map (fun p => { p with client := p.client.map f }) := by
  induction players with
  | nil => rfl
  | cons p rest ih =>
      simp only [modifyClient]
      by_cases hp : p.player_id = pid
      · rw [if_pos hp]
        simp [findPlayer, hp]
      · rw [if_neg hp]
        simp [findPlayer, hp, ih]

theorem findPlayer_modifyClient_ne (players : List PlayerData) (pid q : Nat)
    (f : Client → Client) (h : q ≠ pid) :
    findPlayer (modifyClient players pid f) q = findPlayer players q := by
  induction players with
  | nil => rfl
  | cons p rest ih =>
      simp only [modifyClient]
      by_cases hp : p.player_id = pid
      · have hpq : p.player_id ≠ q := by
          rw [hp]; exact fun hq => h hq.symm
        rw [if_pos hp]
        simp [findPlayer, hpq]
      · rw [if_neg hp]
        by_cases hq : p.player_id = q
        · simp [findPlayer, hq]
        · simp [findPlayer, hq, ih]

theorem findClient_of_findPlayer {players : List PlayerData} {pid : Nat}
    {p : PlayerData} (hp : findPlayer players pid = some p) :
    findClient players pid = p.client := by
  simp [findClient, hp]

theorem modifyClient_eq_of_agree (players : List PlayerData) (pid : Nat)
    (f g : Client → Client)
    (h : ∀ c, findClient players pid = some c → f c = g c) :
    modifyClient players pid f = modifyClient players pid g := by
  induction players with
  | nil => rfl
  | cons p rest ih =>
      simp only [modifyClient]
      by_cases hp : p.player_id = pid
      · rw [if_pos hp, if_pos hp]
        cases hc : p.client with
        | none => rfl
        | some c =>
            have hfg : f c = g c := h c (by simp [findClient, findPlayer, hp, hc])
            simp [hfg]
      · rw [if_neg hp, if_neg hp]
        have hrw := ih (fun c hc => h c (by
          simpa [findClient, findPlayer, hp] using hc))
        rw [hrw]

/-- C5: `unregister(player_id, channel)` moves a `Connected` client whose
channel matches to `Limbo{now + LIMBO}` and changes only the status of that player; in every other case (status not `Connected`, non-matching channel,
missing record, or bot) the call changes no state. -/
theorem c5_unregister (players : List PlayerData) (pid : Nat) (ch : Channel)
    (now limboDur : Nat) :
    (∀ c, findClient players pid = some c → c.status = ClientStatus.connected ch →
        unregister players pid ch now limboDur
          = modifyClient players pid
              (fun cl => { cl with status := ClientStatus.limbo (now + limboDur) }))
    ∧ ((∀ c, findClient players pid = some c → c.status ≠ ClientStatus.connected ch) →
        unregister players pid ch now limboDur = players) := by
  constructor
  · intro c hc hst
    cases hp : findPlayer players pid with
    | none => simp [findClient, hp] at hc
    | some p =>
        cases hcl : p.client with
        | none =>
            rw [findClient_of_findPlayer hp, hcl] at hc
            exact absurd hc (by simp)
        | some c0 =>
            have hred : unregister players pid ch now limboDur
                = modifyClient players pid (unregisterClient ch now limboDur) := by
              simp [unregister, hp, hcl]
            rw [hred]
            apply modifyClient_eq_of_agree
            intro c1 hc1
            have hcc : c1 = c := by
              rw [hc] at hc1; exact (Option.some.inj hc1).symm
            subst hcc
            unfold unregisterClient
            rw [hst]
            simp
  · intro h
    cases hp : findPlayer players pid with
    | none => simp [unregister, hp]
    | some p =>
        cases hcl : p.client with
        | none => simp [unregister, hp, hcl]
        | some c =>
            have hcc : findClient players pid = some c := by
              rw [findClient_of_findPlayer hp, hcl]
            have hne := h c hcc
            have hred : unregister players pid ch now limboDur
                = modifyClient players pid (unregisterClient ch now limboDur) := by
              simp [unregister, hp, hcl]
            rw [hred]
            have hagree : modifyClient players pid (unregisterClient ch now limboDur)
                = modifyClient players pid id := by
              apply modifyClient_eq_of_agree
              intro c1 hc1
              have hcc1 : c1 = c := by
                rw [hcc] at hc1; exact (Option.some.inj hc1).symm
              subst hcc1
              cases hst : c1.status with
              | connected obs =>
                  by_cases hobs : obs = ch
                  · exact absurd (hst.trans (by rw [hobs])) hne
                  · simp [unregisterClient, hst, hobs]
              | pending e => simp [unregisterClient, hst]
              | limbo e => simp [unregisterClient, hst]
              | stale e => simp [unregisterClient, hst]
            rw [hagree]
            exact modifyClient_congr _ _ _ (fun c => rfl)

/-- Default metric record used by concrete witnesses. -/
def m0 : Metrics :=
  { date_created := 0, date_previous := none, date_renewed := 0,
    session_id_previous := none, referrer := none, user_agent_id := none,
    region_id := none, plays := 0, previous_plays := 0, fps := none, rtt := none }

/-- A concrete client record used by concrete witnesses. -/
def baseClient : Client :=
  { session_id := 9, aliasName := "guest", status := ClientStatus.pending 10,
    session_item := none, metrics := m0, reported := [], traces := 0,
    chatState := false, teamState := false, gameData := 0 }

def w5players : List PlayerData :=
  [{ player_id := 1, alive_duration := none,
     client := some { baseClient with status := ClientStatus.connected 3 } }]

theorem c5_unregister_witness :
    unregister w5players 1 3 100 5
      = modifyClient w5players 1
          (fun cl => { cl with status := ClientStatus.limbo (100 + 5) }) :=
  (c5_unregister w5players 1 3 100 5).1
    { baseClient with status := ClientStatus.connected 3 } (by rfl) (by rfl)

/-- Outbound messages (`ObserverUpdate::Close` and the `Update` variants of
`ObserverUpdate::Send`).  Payloads of the external subsystems are opaque
naturals; `sessionCreated` carries the fields the source fills in. -/
inductive Msg where
  | sessionCreated (arena_id : Nat) (server_id : Option Nat)
      (session_id : Nat) (player_id : Nat)
  | leaderboardInit (d : Nat)
  | liveboardInit (d : Nat)
  | chatInit (d : Nat)
  | playerInit (d : Nat)
  | teamInit (d : Nat)
  | systemInit (d : Nat)
  | close
  | gameUpdate (d : Nat)
  | playerUpdated (d : Nat)
  | teamAddedOrUpdated (d : Nat)
  | teamRemoved (d : Nat)
  | chatUpdated (d : Nat)
  | teamMembers (d : Nat)
  | teamJoiners (d : Nat)
  | teamJoins (d : Nat)
  | leaderboardUpdated (period : Nat) (d : Nat)
  | liveboardUpdated (d : Nat)
  | systemAdded (d : Nat)
  | systemRemoved (d : Nat)
  deriving DecidableEq, Repr

/-- Environment `register` reads its initializer payloads from.  The
leaderboard, liveboard, player-roster, team and system initializers come
from external repositories whose sources are outside the client repo; only
their presence and payload identity matter here.  `chatInit` is the chat
initializer: `ChatRepo::initialize_client(player_id, players)` (chat.rs is
not among the provided sources). Modelled from the spec: the registrar
sends the chat initializer, computed against current players, on the
registering channel between the liveboard and player-roster initializers. -/
structure RegEnv where
  arena_id : Nat
  server_id : Option Nat
  leaderboardInits : List Nat
  liveboardInit : Nat
  chatInit : Nat
  playerInit : Nat
  teamInit : Option Nat
  /-- Here `none` models no `SystemRepo`; `some none` a repo with no initializer. -/
  systemRepo : Option (Option Nat)
  deriving Repr

/-- The reset `register` performs before swapping status: default per-game
`data`, forget chat and team client state, then `Connected{channel}`. -/
def registerResetClient (ch : Channel) (c : Client) : Client :=
  { c with gameData := 0, chatState := false, teamState := false,
           status := ClientStatus.connected ch }

/-- The `Close` sent to the previous observer when re-registering over a live
connection (source: `match old_status { Connected { observer } => observer.send(Close) …`). -/
def closeOnRegister : ClientStatus → List (Channel × Msg)
  | .connected obs => [(obs, Msg.close)]
  | _ => []

/-- Number of `game.player_joined` calls `register` makes, by old status
(`Pending | Stale` rejoin the game; `Connected`/`Limbo` are already in). -/
def joinOnRegister : ClientStatus → Nat
  | .pending _ => 1
  | .stale _ => 1
  | _ => 0

/-- Result of a `register` call: new table, emitted channel messages in
order, and the number of `player_joined` notifications. -/
structure RegResult where
  players : List PlayerData
  sends : List (Channel × Msg)
  joinCalls : Nat
  deriving Repr

/-- The fixed initializer block `register` sends on the new channel, in
source order: every leaderboard initializer, the liveboard initializer, the
chat initializer, the player-roster initializer, the team initializer if
any, the system initializer if any. -/
def regInits (env : RegEnv) (ch : Channel) : List (Channel × Msg) :=
  env.leaderboardInits.map (fun d => (ch, Msg.leaderboardInit d))
  ++ [(ch, Msg.liveboardInit env.liveboardInit)]
  ++ [(ch, Msg.chatInit env.chatInit)]
  ++ [(ch, Msg.playerInit env.playerInit)]
  ++ (match env.teamInit with
      | some t => [(ch, Msg.teamInit t)]
      | none => [])
  ++ (match env.systemRepo with
      | some (some s) => [(ch, Msg.systemInit s)]
      | _ => [])

/-- Embeds `ClientRepo::register`. -/
def register (env : RegEnv) (players : List PlayerData) (pid : Nat)
    (ch : Channel) : RegResult :=
  match findPlayer players pid with
  | none => ⟨players, [], 0⟩
  | some p =>
      match p.client with
      | none => ⟨players, [], 0⟩
      | some client =>
          ⟨modifyClient players pid (registerResetClient ch),
           (ch, Msg.sessionCreated env.arena_id env.server_id client.session_id pid)
             :: (closeOnRegister client.status ++ regInits env ch),
           joinOnRegister client.status⟩

/-- Messages observed on one channel, in order. -/
def onChannel (ch : Channel) (sends : List (Channel × Msg)) : List Msg :=
  (sends.filter (fun s => s.1 = ch)).map (·.2)

/-- Number of `Close` messages delivered to one channel. -/
def closesTo (ch : Channel) (sends : List (Channel × Msg)) : Nat :=
  (sends.filter (fun s => s.1 = ch ∧ s.2 = Msg.close)).length

theorem onChannel_nil (ch : Channel) : onChannel ch [] = [] := rfl

theorem onChannel_cons (ch ch' : Channel) (m : Msg) (rest : List (Channel × Msg)) :
    onChannel ch ((ch', m) :: rest)
      = if ch' = ch then m :: onChannel ch rest else onChannel ch rest := by
  by_cases h : ch' = ch <;> simp [onChannel, List.filter_cons, h]

theorem onChannel_append (ch : Channel) (l1 l2 : List (Channel × Msg)) :
    onChannel ch (l1 ++ l2) = onChannel ch l1 ++ onChannel ch l2 := by
  simp [onChannel, List.filter_append]

theorem onChannel_map_self (ch : Channel) (l : List Nat) (f : Nat → Msg) :
    onChannel ch (l.map (fun d => (ch, f d))) = l.map f := by
  induction l with
  | nil => rfl
  | cons a t ih =>
      show onChannel ch ((ch, f a) :: t.map (fun d => (ch, f d))) = f a :: t.map f
      rw [onChannel_cons, if_pos rfl, ih]

theorem closesTo_cons (ch ch' : Channel) (m : Msg) (rest : List (Channel × Msg)) :
    closesTo ch ((ch', m) :: rest)
      = (if ch' = ch ∧ m = Msg.close then 1 else 0) + closesTo ch rest := by
  by_cases h1 : ch' = ch
  · by_cases h2 : m = Msg.close
    · simp [closesTo, List.filter_cons, h1, h2, Nat.add_comm]
    · simp [closesTo, List.filter_cons, h1, h2]
  · simp [closesTo, List.filter_cons, h1]

theorem closesTo_append (ch : Channel) (l1 l2 : List (Channel × Msg)) :
    closesTo ch (l1 ++ l2) = closesTo ch l1 + closesTo ch l2 := by
  simp [closesTo, List.filter_append]

theorem closesTo_map_payload (ch ch' : Channel) (l : List Nat) (f : Nat → Msg)
    (h : ∀ d, f d ≠ Msg.close) :
    closesTo ch (l.map (fun d => (ch', f d))) = 0 := by
  induction l with
  | nil => rfl
  | cons a t ih =>
      show closesTo ch ((ch', f a) :: t.map (fun d => (ch', f d))) = 0
      rw [closesTo_cons, ih]
      simp [h a]

theorem closesTo_regInits (och ch : Channel) (env : RegEnv) :
    closesTo och (regInits env ch) = 0 := by
  unfold regInits
  rw [closesTo_append, closesTo_append, closesTo_append, closesTo_append,
      closesTo_append, closesTo_map_payload _ _ _ _ (fun d => by simp)]
  rw [closesTo_cons, closesTo_cons, closesTo_cons]
  have ht : closesTo och (match env.teamInit with
      | some t => [(ch, Msg.teamInit t)]
      | none => []) = 0 := by
    cases env.teamInit with
    | none => rfl
    | some t => rw [closesTo_cons]; simp [closesTo]
  have hs : closesTo och (match env.systemRepo with
      | some (some s) => [(ch, Msg.systemInit s)]
      | _ => []) = 0 := by
    cases hr : env.systemRepo with
    | none => rfl
    | some o =>
        cases o with
        | none => rfl
        | some s => rw [closesTo_cons]; simp [closesTo]
  rw [ht, hs]
  simp [closesTo]

theorem onChannel_regInits (ch : Channel) (env : RegEnv) :
    onChannel ch (regInits env ch)
      = env.leaderboardInits.map Msg.leaderboardInit
        ++ [Msg.liveboardInit env.liveboardInit]
        ++ [Msg.chatInit env.chatInit]
        ++ [Msg.playerInit env.playerInit]
        ++ (match env.teamInit with
            | some t => [Msg.teamInit t]
            | none => [])
        ++ (match env.systemRepo with
            | some (some s) => [Msg.systemInit s]
            | _ => []) := by
  unfold regInits
  rw [onChannel_append, onChannel_append, onChannel_append, onChannel_append,
      onChannel_append, onChannel_map_self]
  rw [onChannel_cons, if_pos rfl, onChannel_cons, if_pos rfl,
      onChannel_cons, if_pos rfl]
  have ht : onChannel ch (match env.teamInit with
      | some t => [(ch, Msg.teamInit t)]
      | none => []) = (match env.teamInit with
      | some t => [Msg.teamInit t]
      | none => []) := by
    cases env.teamInit with
    | none => rfl
    | some t => rw [onChannel_cons, if_pos rfl]; rfl
  have hs : onChannel ch (match env.systemRepo with
      | some (some s) => [(ch, Msg.systemInit s)]
      | _ => []) = (match env.systemRepo with
      | some (some s) => [Msg.systemInit s]
      | _ => []) := by
    cases hr : env.systemRepo with
    | none => rfl
    | some o =>
        cases o with
        | none => rfl
        | some s => rw [onChannel_cons, if_pos rfl]; rfl
  rw [ht, hs]
  rfl

/-- Shared per-tick deltas computed in Phase 1 of `ClientRepo::update`
(players/teams/chat/liveboard/leaderboard/system repos are external; their
payloads are opaque). -/
structure TickEnv where
  gameUpd : Nat → Option Nat
  playerUpdate : Option Nat
  teamUpdate : Option (List Nat × List Nat)
  chatTeam : Nat → Option (Option Nat × Option Nat × Option Nat × Option Nat)
  leaderboardUpdate : List (Nat × Nat)
  liveboardUpdate : Option Nat
  serverDelta : Option (List Nat × List Nat)

/-- Send a message built from an optional payload. -/
def optSend (ch : Channel) (f : Nat → Msg) : Option Nat → List (Channel × Msg)
  | some d => [(ch, f d)]
  | none => []

/-- Tick messages for one `Connected` client, in the order of
`ClientRepo::update` Phase 2. -/
def tickClientSends (env : TickEnv) (pid : Nat) (ch : Channel) :
    List (Channel × Msg) :=
  optSend ch Msg.gameUpdate (env.gameUpd pid)
  ++ optSend ch Msg.playerUpdated env.playerUpdate
  ++ (match env.teamUpdate with
      | some (a, r) =>
          (if a.isEmpty then [] else [(ch, Msg.teamAddedOrUpdated a.length)])
          ++ (if r.isEmpty then [] else [(ch, Msg.teamRemoved r.length)])
      | none => [])
  ++ (match env.chatTeam pid with
      | some (cu, mem, jnr, jns) =>
          optSend ch Msg.chatUpdated cu
          ++ optSend ch Msg.teamMembers mem
          ++ optSend ch Msg.teamJoiners jnr
          ++ optSend ch Msg.teamJoins jns
      | none => [])
  ++ env.leaderboardUpdate.map (fun pr => (ch, Msg.leaderboardUpdated pr.1 pr.2))
  ++ optSend ch Msg.liveboardUpdated env.liveboardUpdate
  ++ (match env.serverDelta with
      | some (a, r) =>
          (if a.isEmpty then [] else [(ch, Msg.systemAdded a.length)])
          ++ (if r.isEmpty then [] else [(ch, Msg.systemRemoved r.length)])
      | none => [])

/-- Embeds `ClientRepo::update` (tick broadcaster): fan the tick messages out to
every `Connected` client; everyone else receives nothing. -/
def tickSends (env : TickEnv) : List PlayerData → List (Channel × Msg)
  | [] => []
  | p :: rest =>
      (match p.client with
       | none => []
       | some c =>
           match c.status with
           | .connected obs => tickClientSends env p.player_id obs
           | _ => []) ++ tickSends env rest

/-- C2: on `register(player_id, channel)` over an existing non-bot
record the status becomes `Connected{channel}`; from `Connected{old}` the
old channel receives exactly one `Close` and `player_joined` is not called;
from `Pending` or `Stale`, `player_joined` is called exactly once; from
`Limbo` neither a `Close` nor a `player_joined` occurs. -/
theorem c2_register (env : RegEnv) (players : List PlayerData) (pid : Nat)
    (ch : Channel) (p : PlayerData) (c : Client)
    (hp : findPlayer players pid = some p) (hc : p.client = some c) :
    statusOf (register env players pid ch).players pid
        = some (ClientStatus.connected ch)
    ∧ (∀ oldch, c.status = ClientStatus.connected oldch →
        closesTo oldch (register env players pid ch).sends = 1
          ∧ (register env players pid ch).joinCalls = 0)
    ∧ (((∃ e, c.status = ClientStatus.pending e)
          ∨ (∃ e, c.status = ClientStatus.stale e)) →
        (register env players pid ch).joinCalls = 1)
    ∧ (∀ e, c.status = ClientStatus.limbo e →
        (register env players pid ch).joinCalls = 0
          ∧ ∀ och, closesTo och (register env players pid ch).sends = 0) := by
  have hreg : register env players pid ch
      = ⟨modifyClient players pid (registerResetClient ch),
         (ch, Msg.sessionCreated env.arena_id env.server_id c.session_id pid)
           :: (closeOnRegister c.status ++ regInits env ch),
         joinOnRegister c.status⟩ := by
    simp [register, hp, hc]
  refine ⟨?_, ?_, ?_, ?_⟩
  · rw [hreg]
    simp only [statusOf, findClient, findPlayer_modifyClient, hp, Option.map_some,
      Option.bind, hc, Option.map]
    rfl
  · intro oldch hst
    rw [hreg]
    simp only []
    constructor
    · rw [closesTo_cons, closesTo_append, closesTo_regInits, hst]
      simp [closeOnRegister, closesTo_cons, closesTo]
    · rw [hst]; rfl
  · intro hps
    rw [hreg]
    rcases hps with ⟨e, he⟩ | ⟨e, he⟩ <;> (rw [he]; rfl)
  · intro e he
    rw [hreg]
    constructor
    · rw [he]; rfl
    · intro och
      rw [closesTo_cons, closesTo_append, closesTo_regInits, he]
      simp [closeOnRegister, closesTo]

def w2players : List PlayerData :=
  [{ player_id := 1, alive_duration := none,
     client := some { baseClient with status := ClientStatus.connected 3 } }]

def w2env : RegEnv :=
  { arena_id := 7, server_id := some 2, leaderboardInits := [11, 12],
    liveboardInit := 13, chatInit := 14, playerInit := 15,
    teamInit := some 16, systemRepo := some (some 17) }

theorem c2_register_witness :
    statusOf (register w2env w2players 1 4).players 1
        = some (ClientStatus.connected 4)
    ∧ closesTo 3 (register w2env w2players 1 4).sends = 1
    ∧ (register w2env w2players 1 4).joinCalls = 0 := by
  have h := c2_register w2env w2players 1 4
    { player_id := 1, alive_duration := none,
      client := some { baseClient with status := ClientStatus.connected 3 } }
    { baseClient with status := ClientStatus.connected 3 } (by rfl) (by rfl)
  exact ⟨h.1, (h.2.1 3 rfl).1, (h.2.1 3 rfl).2⟩

/-- C4: the messages a `register(player_id, channel)` call delivers on
the new channel are exactly `SessionCreated` followed by every leaderboard
initializer, the liveboard, chat and player-roster initializers, then the
team and system initializers when present; and in a register-then-tick run
the whole block precedes every tick-driven message on that channel.  (The
channel is new: it is not the channel of an existing `Connected` status.) -/
theorem c4_initializer_order (env : RegEnv) (tenv : TickEnv)
    (players : List PlayerData) (pid : Nat) (ch : Channel)
    (p : PlayerData) (c : Client)
    (hp : findPlayer players pid = some p) (hc : p.client = some c)
    (hfresh : ∀ obs, c.status = ClientStatus.connected obs → obs ≠ ch) :
    onChannel ch (register env players pid ch).sends
      = Msg.sessionCreated env.arena_id env.server_id c.session_id pid
        :: (env.leaderboardInits.map Msg.leaderboardInit
            ++ [Msg.liveboardInit env.liveboardInit]
            ++ [Msg.chatInit env.chatInit]
            ++ [Msg.playerInit env.playerInit]
            ++ (match env.teamInit with
                | some t => [Msg.teamInit t]
                | none => [])
            ++ (match env.systemRepo with
                | some (some s) => [Msg.systemInit s]
                | _ => []))
    ∧ onChannel ch ((register env players pid ch).sends
          ++ tickSends tenv (register env players pid ch).players)
      = onChannel ch (register env players pid ch).sends
        ++ onChannel ch (tickSends tenv (register env players pid ch).players) := by
  have hreg : register env players pid ch
      = ⟨modifyClient players pid (registerResetClient ch),
         (ch, Msg.sessionCreated env.arena_id env.server_id c.session_id pid)
           :: (closeOnRegister c.status ++ regInits env ch),
         joinOnRegister c.status⟩ := by
    simp [register, hp, hc]
  constructor
  · rw [hreg]
    simp only []
    rw [onChannel_cons, if_pos rfl, onChannel_append, onChannel_regInits]
    have hclose : onChannel ch (closeOnRegister c.status) = [] := by
      cases hst : c.status with
      | connected obs =>
          have hobs := hfresh obs hst
          simp [closeOnRegister, onChannel_cons, hobs, onChannel_nil]
      | pending e => rfl
      | limbo e => rfl
      | stale e => rfl
    rw [hclose]
    rfl
  · exact onChannel_append ch _ _

theorem c4_initializer_order_witness :
    onChannel 4 (register w2env w2players 1 4).sends
      = [Msg.sessionCreated 7 (some 2) 9 1,
         Msg.leaderboardInit 11, Msg.leaderboardInit 12,
         Msg.liveboardInit 13, Msg.chatInit 14, Msg.playerInit 15,
         Msg.teamInit 16, Msg.systemInit 17] := by
  have h := c4_initializer_order w2env
    { gameUpd := fun _ => none, playerUpdate := none, teamUpdate := none,
      chatTeam := fun _ => none, leaderboardUpdate := [],
      liveboardUpdate := none, serverDelta := none }
    w2players 1 4
    { player_id := 1, alive_duration := none,
      client := some { baseClient with status := ClientStatus.connected 3 } }
    { baseClient with status := ClientStatus.connected 3 } (by rfl) (by rfl)
    (by intro obs hobs; cases hobs; decide)
  rw [h.1]
  rfl

/-- Per-client outcome of one `prune` sweep (source: `Connected` waits for
unregister; `Limbo` with `now >= expiry` demotes to
`Stale{now + STALE_EXPIRY}` and calls `player_left`; `Pending`/`Stale` with
`now > expiry` are forgotten).  Returns the surviving record and the number
of `player_left` calls. -/
def pruneClient (now staleExpiry : Nat) (c : Client) : Option Client × Nat :=
  match c.status with
  | .connected _ => (some c, 0)
  | .limbo e =>
      if e ≤ now then (some { c with status := .stale (now + staleExpiry) }, 1)
      else (some c, 0)
  | .pending e => (if e < now then none else some c, 0)
  | .stale e => (if e < now then none else some c, 0)

/-- Embeds `ClientRepo::prune` over the table: bots are untouched; forgotten
players are removed (`players.forget`). -/
def prune (now staleExpiry : Nat) : List PlayerData → List PlayerData × Nat
  | [] => ([], 0)
  | p :: rest =>
      let pr := prune now staleExpiry rest
      match p.client with
      | none => (p :: pr.1, pr.2)
      | some c =>
          match pruneClient now staleExpiry c with
          | (some c', k) => ({ p with client := some c' } :: pr.1, k + pr.2)
          | (none, k) => (pr.1, k + pr.2)

/-- The view of one player for the join/leave accounting: the client record (if
any) plus how many `player_joined` / `player_left` calls the game has seen
for this player. -/
structure PTrack where
  client : Option Client
  joined : Nat
  left : Nat
  deriving Repr

/-- The lifecycle events of claim C1. -/
inductive Ev where
  | reg (ch : Channel)
  | unreg (ch : Channel) (now : Nat)
  | sweep (now : Nat)
  deriving Repr

/-- Effect of one event on the record of one player, assembled from the same
client-level transition functions the repository operations
(`register` / `unregister` / `prune`) use. -/
def stepEv (limboDur staleExpiry : Nat) (s : PTrack) (e : Ev) : PTrack :=
  match e with
  | .reg ch =>
      match s.client with
      | none => s
      | some c =>
          { s with client := some (registerResetClient ch c),
                   joined := s.joined + joinOnRegister c.status }
  | .unreg ch now =>
      match s.client with
      | none => s
      | some c => { s with client := some (unregisterClient ch now limboDur c) }
  | .sweep now =>
      match s.client with
      | none => s
      | some c =>
          match pruneClient now staleExpiry c with
          | (c', k) => { client := c', joined := s.joined, left := s.left + k }

/-- A player is "in game" when its status is `Connected` or `Limbo`. -/
def inGame : Option Client → Bool
  | some c =>
      match c.status with
      | .connected _ => true
      | .limbo _ => true
      | _ => false
  | none => false

/-- Join/leave parity: `joined - left` is 1 exactly when in game, else 0
(stated additively over naturals). -/
def parity (s : PTrack) : Prop :=
  s.joined = s.left + (if inGame s.client then 1 else 0)

theorem parity_stepEv (limboDur staleExpiry : Nat) (s : PTrack) (e : Ev)
    (h : parity s) : parity (stepEv limboDur staleExpiry s e) := by
  cases e with
  | reg ch =>
      cases hc : s.client with
      | none => simpa [stepEv, hc] using h
      | some c =>
          unfold parity at h ⊢
          rw [hc] at h
          cases hst : c.status with
          | pending e0 =>
              simp [stepEv, hc, hst, joinOnRegister, registerResetClient, inGame] at h ⊢
              omega
          | connected obs =>
              simp [stepEv, hc, hst, joinOnRegister, registerResetClient, inGame] at h ⊢
              omega
          | limbo e0 =>
              simp [stepEv, hc, hst, joinOnRegister, registerResetClient, inGame] at h ⊢
              omega
          | stale e0 =>
              simp [stepEv, hc, hst, joinOnRegister, registerResetClient, inGame] at h ⊢
              omega
  | unreg ch now =>
      cases hc : s.client with
      | none => simpa [stepEv, hc] using h
      | some c =>
          unfold parity at h ⊢
          rw [hc] at h
          cases hst : c.status with
          | connected obs =>
              by_cases hobs : obs = ch
              · simp [stepEv, hc, unregisterClient, hst, hobs, inGame] at h ⊢
                omega
              · simp [stepEv, hc, unregisterClient, hst, hobs, inGame] at h ⊢
                omega
          | pending e0 => simpa [stepEv, hc, unregisterClient, hst, inGame] using h
          | limbo e0 => simpa [stepEv, hc, unregisterClient, hst, inGame] using h
          | stale e0 => simpa [stepEv, hc, unregisterClient, hst, inGame] using h
  | sweep now =>
      cases hc : s.client with
      | none => simpa [stepEv, hc] using h
      | some c =>
          unfold parity at h ⊢
          rw [hc] at h
          cases hst : c.status with
          | connected obs => simpa [stepEv, hc, pruneClient, hst, inGame] using h
          | limbo e0 =>
              by_cases he : e0 ≤ now
              · simp [stepEv, hc, pruneClient, hst, he, inGame] at h ⊢
                omega
              · simp [stepEv, hc, pruneClient, hst, he, inGame] at h ⊢
                omega
          | pending e0 =>
              by_cases he : e0 < now
              · simp [stepEv, hc, pruneClient, hst, he, inGame] at h ⊢
                omega
              · simp [stepEv, hc, pruneClient, hst, he, inGame] at h ⊢
                omega
          | stale e0 =>
              by_cases he : e0 < now
              · simp [stepEv, hc, pruneClient, hst, he, inGame] at h ⊢
                omega
              · simp [stepEv, hc, pruneClient, hst, he, inGame] at h ⊢
                omega

/-- C1: over every sequence of register / unregister / prune events, the
number of `player_joined` calls minus `player_left` calls for a player is 1
exactly when its status is currently `Connected` or `Limbo`, and 0
otherwise (given the accounting held initially, as it does for a fresh
`Pending` record or no record). -/
theorem c1_join_leave_parity (limboDur staleExpiry : Nat) (events : List Ev)
    (init : PTrack) (h : parity init) :
    parity (events.foldl (stepEv limboDur staleExpiry) init) := by
  induction events generalizing init with
  | nil => exact h
  | cons e rest ih =>
      exact ih (stepEv limboDur staleExpiry init e)
        (parity_stepEv limboDur staleExpiry init e h)

theorem c1_join_leave_parity_witness :
    parity ([Ev.reg 1, Ev.unreg 1 50, Ev.sweep 1000, Ev.sweep 2000].foldl
      (stepEv 5 75) ⟨some baseClient, 0, 0⟩) :=
  c1_join_leave_parity 5 75 [Ev.reg 1, Ev.unreg 1 50, Ev.sweep 1000, Ev.sweep 2000]
    ⟨some baseClient, 0, 0⟩ (by unfold parity; decide)

/-- Values of `f32` as the request handlers observe them: `is_finite` splits
finite values (modelled as rationals) from NaN and the infinities. -/
inductive F32 where
  | finite (val : ℚ)
  | nan
  | inf
  | negInf
  deriving DecidableEq, Repr

def F32.isFinite : F32 → Bool
  | .finite _ => true
  | _ => false

/-- Embeds `fn sanitize_tps(tps: f32) -> Option<f32>`:
`tps.is_finite().then_some(tps.clamp(0.0, 144.0))`. -/
def sanitize_tps (tps : F32) : Option ℚ :=
  match tps with
  | .finite v => some (min (max v 0) 144)
  | _ => none

/-- The `&'static str` errors of the request handlers. -/
inductive Err where
  | playerDoesNotExist
  | onlyClientsCanSetAlias
  | onlyClientsCanTallyFps
  | onlyClientsCanTrace
  | cannotChangeAliasWhileAlive
  | invalidFps
  | traceTooLong
  | tooManyTraces
  | nonexistentObserver
  deriving DecidableEq, Repr

/-- The `ClientUpdate` replies of the client request handlers. -/
inductive ClientUpdate where
  | aliasSet (a : String)
  | fpsTallied
  | traced
  deriving DecidableEq, Repr

/-- Embeds `ClientRepo::set_alias`; `sanitize` stands for
`PlayerAlias::new_sanitized` (core_protocol, outside the provided
sources).  Rejected when the player has been alive for more than one
second (1000 ms). -/
def set_alias (sanitize : String → String) (players : List PlayerData)
    (pid : Nat) (aliasReq : String) :
    List PlayerData × Except Err ClientUpdate :=
  match findPlayer players pid with
  | none => (players, .error .playerDoesNotExist)
  | some p =>
      if (p.alive_duration.map (fun d => decide (1000 < d))).getD false then
        (players, .error .cannotChangeAliasWhileAlive)
      else
        match p.client with
        | none => (players, .error .onlyClientsCanSetAlias)
        | some _ =>
            (modifyClient players pid
               (fun c => { c with aliasName := sanitize aliasReq }),
             .ok (.aliasSet (sanitize aliasReq)))

/-- Embeds `ClientRepo::tally_fps`: stores `sanitize_tps(fps)` into `metrics.fps`
first, then reports `invalid fps` exactly when the stored value is `None`. -/
def tally_fps (players : List PlayerData) (pid : Nat) (fps : F32) :
    List PlayerData × Except Err ClientUpdate :=
  match findPlayer players pid with
  | none => (players, .error .playerDoesNotExist)
  | some p =>
      match p.client with
      | none => (players, .error .onlyClientsCanTallyFps)
      | some _ =>
          (modifyClient players pid
             (fun c => { c with metrics := { c.metrics with fps := sanitize_tps fps } }),
           if (sanitize_tps fps).isSome then .ok .fpsTallied
           else .error .invalidFps)

/-- One appended trace-log line: `ref=…, reg=…, ua=…, msg=…`. -/
structure TraceLine where
  referrer : Option Nat
  region : Option Nat
  ua : Option Nat
  msg : String
  deriving DecidableEq, Repr

/-- Result of a `trace` call: table, configured trace file contents,
fallback info log, reply. -/
structure TraceResult where
  players : List PlayerData
  file : List TraceLine
  infoLog : List String
  reply : Except Err ClientUpdate
  deriving Repr

/-- Embeds `ClientRepo::trace`.  Here `cfg` models whether `trace_log` is configured;
`ioOk` models whether opening/appending the file succeeds — an I/O failure is
only logged (`error!(..)`) and the handler continues. -/
def trace (cfg ioOk : Bool) (players : List PlayerData) (pid : Nat)
    (message : String) (file : List TraceLine) (infoLog : List String) :
    TraceResult :=
  match findPlayer players pid with
  | none => ⟨players, file, infoLog, .error .playerDoesNotExist⟩
  | some p =>
      match p.client with
      | none => ⟨players, file, infoLog, .error .onlyClientsCanTrace⟩
      | some c =>
          if 2048 < message.length then
            ⟨players, file, infoLog, .error .traceTooLong⟩
          else if c.traces < 25 then
            ⟨modifyClient players pid (fun cl => { cl with traces := cl.traces + 1 }),
             (if cfg then
                (if ioOk then
                   file ++ [⟨c.metrics.referrer, c.metrics.region_id,
                             c.metrics.user_agent_id, message⟩]
                 else file)
              else file),
             (if cfg then infoLog else infoLog ++ [message]),
             .ok .traced⟩
          else
            ⟨players, file, infoLog, .error .tooManyTraces⟩

def c3Players : List PlayerData :=
  [{ player_id := 1, alive_duration := none,
     client := some { baseClient with metrics := { m0 with fps := some 60 } } }]

/-- Counterexample to **C3**: with `metrics.fps = Some 60` stored, a
`TallyFps(NaN)` request returns the `invalid fps` error yet overwrites the
previously stored `metrics.fps` with `None` — the error path does not leave
the record unchanged. -/
theorem c3_counterexample :
    fpsOf c3Players 1 = some (some 60)
    ∧ (tally_fps c3Players 1 F32.nan).2 = Except.error Err.invalidFps
    ∧ fpsOf (tally_fps c3Players 1 F32.nan).1 1 = some none :=
  ⟨rfl, rfl, rfl⟩

/-- Embeds `ClientRepo::handle_game_command`: the players table is taken by
shared borrow (`&PlayerRepo<G>`, so client records cannot be mutated) and
handed to `GameService::player_command`, whose optional one-off reply is an
oracle; the only error path is a missing player (`nonexistent observer`).
The table is returned alongside so that state preservation is observable. -/
def handle_game_command (reply : Option Nat) (players : List PlayerData)
    (pid : Nat) : List PlayerData × Except Err (Option Nat) :=
  if (findPlayer players pid).isSome then (players, .ok reply)
  else (players, .error .nonexistentObserver)

/-- Modelled from the spec: the chat / invitation / player / team
delegation handlers (`handle_chat_request`, `handle_invitation_request`,
`handle_player_request`, `handle_team_request` — chat.rs, invitation.rs,
player.rs and team.rs are not among the provided sources).  Per §4.F each
delegation returns `Result<Update, &'static str>` and per §7 every error
path leaves core state unchanged: the subsystem applies its mutation only
on success.  The verdict and the successful mutation are oracles; each of
the four subsystems is one instantiation. -/
def delegateHandler (verdict : List PlayerData → Nat → Except Err Nat)
    (applyOk : List PlayerData → Nat → Nat → List PlayerData)
    (players : List PlayerData) (pid : Nat) :
    List PlayerData × Except Err Nat :=
  match verdict players pid with
  | .error e => (players, .error e)
  | .ok u => (applyOk players pid u, .ok u)

/-- C3 (amended): every error-returning path of the request handlers —
`set_alias`, `trace`, the Game delegation, and the chat / invitation /
player / team delegations — leaves all core client-record state (and the
trace log) unchanged; an error-returning `tally_fps` either leaves the
table unchanged (player missing / bot) or — on `invalid fps` — changes
nothing except that it overwrites `metrics.fps` with `None` instead of
preserving the previously stored value. -/
theorem c3_error_paths (sanitize : String → String) (players : List PlayerData)
    (pid : Nat) (aliasReq : String) (fps : F32) (cfg ioOk : Bool)
    (message : String) (file : List TraceLine) (infoLog : List String)
    (reply : Option Nat) (verdict : List PlayerData → Nat → Except Err Nat)
    (applyOk : List PlayerData → Nat → Nat → List PlayerData) :
    (∀ e, (set_alias sanitize players pid aliasReq).2 = .error e →
        (set_alias sanitize players pid aliasReq).1 = players)
    ∧ (∀ e, (trace cfg ioOk players pid message file infoLog).reply = .error e →
        trace cfg ioOk players pid message file infoLog
          = ⟨players, file, infoLog, .error e⟩)
    ∧ (∀ e, (handle_game_command reply players pid).2 = .error e →
        (handle_game_command reply players pid).1 = players)
    ∧ (∀ e, (delegateHandler verdict applyOk players pid).2 = .error e →
        (delegateHandler verdict applyOk players pid).1 = players)
    ∧ (∀ e, (tally_fps players pid fps).2 = .error e →
        (tally_fps players pid fps).1 = players
          ∨ (e = Err.invalidFps ∧ sanitize_tps fps = none
              ∧ (tally_fps players pid fps).1
                  = modifyClient players pid
                      (fun c => { c with metrics := { c.metrics with fps := none } }))) := by
  refine ⟨?_, ?_, ?_, ?_, ?_⟩
  · intro e he
    cases hp : findPlayer players pid with
    | none => simp [set_alias, hp]
    | some p =>
        by_cases halive : (p.alive_duration.map (fun d => decide (1000 < d))).getD false
        · simp [set_alias, hp, halive]
        · cases hc : p.client with
          | none => simp [set_alias, hp, halive, hc]
          | some c => simp [set_alias, hp, halive, hc] at he
  · intro e he
    cases hp : findPlayer players pid with
    | none => simp [trace, hp] at he ⊢; exact he
    | some p =>
        cases hc : p.client with
        | none => simp [trace, hp, hc] at he ⊢; exact he
        | some c =>
            by_cases hlen : 2048 < message.length
            · simp [trace, hp, hc, hlen] at he ⊢; exact he
            · by_cases htr : c.traces < 25
              · simp [trace, hp, hc, hlen, htr] at he
              · simp [trace, hp, hc, hlen, htr] at he ⊢; exact he
  · intro e he
    by_cases hp : (findPlayer players pid).isSome
    · simp [handle_game_command, hp] at he
    · simp [handle_game_command, hp]
  · intro e he
    cases hv : verdict players pid with
    | error e0 => simp [delegateHandler, hv]
    | ok u => simp [delegateHandler, hv] at he
  · intro e he
    cases hp : findPlayer players pid with
    | none => left; simp [tally_fps, hp]
    | some p =>
        cases hc : p.client with
        | none => left; simp [tally_fps, hp, hc]
        | some c =>
            by_cases hs : (sanitize_tps fps).isSome
            · simp [tally_fps, hp, hc, hs] at he
            · right
              have hn : sanitize_tps fps = none := by
                cases hsf : sanitize_tps fps with
                | none => rfl
                | some v => rw [hsf] at hs; simp at hs
              refine ⟨?_, hn, ?_⟩
              · simp [tally_fps, hp, hc, hs] at he
                exact he.symm
              · simp only [tally_fps, hp, hc, hn]

def c3AlivePlayers : List PlayerData :=
  [{ player_id := 1, alive_duration := some 2000, client := some baseClient }]

theorem c3_error_paths_witness :
    (set_alias (fun s => s) c3AlivePlayers 1 "Neo").1 = c3AlivePlayers
    ∧ (delegateHandler (fun _ _ => Except.error Err.playerDoesNotExist)
        (fun ps _ _ => ps) c3AlivePlayers 1).1 = c3AlivePlayers :=
  ⟨(c3_error_paths (fun s => s) c3AlivePlayers 1 "Neo" F32.nan true true
      "m" [] [] none (fun _ _ => Except.error Err.playerDoesNotExist)
      (fun ps _ _ => ps)).1 Err.cannotChangeAliasWhileAlive (by rfl),
   (c3_error_paths (fun s => s) c3AlivePlayers 1 "Neo" F32.nan true true
      "m" [] [] none (fun _ _ => Except.error Err.playerDoesNotExist)
      (fun ps _ _ => ps)).2.2.2.1 Err.playerDoesNotExist (by rfl)⟩

/-- C8: for a `SetAlias` request addressed at an existing client, being
alive for more than one second yields `cannot_change_alias_while_alive`
with the table unchanged; otherwise (not alive, or alive for at most one
second) the sanitized alias is stored and the reply carries it. -/
theorem c8_set_alias (sanitize : String → String) (players : List PlayerData)
    (pid : Nat) (aliasReq : String) (p : PlayerData) (c : Client)
    (hp : findPlayer players pid = some p) (hc : p.client = some c) :
    (∀ d, p.alive_duration = some d → 1000 < d →
        set_alias sanitize players pid aliasReq
          = (players, .error .cannotChangeAliasWhileAlive))
    ∧ ((p.alive_duration = none
          ∨ ∃ d, p.alive_duration = some d ∧ d ≤ 1000) →
        set_alias sanitize players pid aliasReq
          = (modifyClient players pid
               (fun cl => { cl with aliasName := sanitize aliasReq }),
             .ok (.aliasSet (sanitize aliasReq)))) := by
  constructor
  · intro d hd hgt
    simp [set_alias, hp, hd, hgt]
  · intro hcase
    have halive : (p.alive_duration.map (fun d => decide (1000 < d))).getD false = false := by
      rcases hcase with hnone | ⟨d, hd, hle⟩
      · simp [hnone]
      · simp [hd, Nat.not_lt.mpr hle]
    simp [set_alias, hp, halive, hc]

theorem c8_set_alias_witness :
    set_alias (fun s => s) w5players 1 "Neo"
      = (modifyClient w5players 1 (fun cl => { cl with aliasName := "Neo" }),
         .ok (.aliasSet "Neo")) :=
  (c8_set_alias (fun s => s) w5players 1 "Neo"
      { player_id := 1, alive_duration := none,
        client := some { baseClient with status := ClientStatus.connected 3 } }
      { baseClient with status := ClientStatus.connected 3 }
      (by rfl) (by rfl)).2 (Or.inl rfl)

/-- C7: a `Trace{message}` longer than 2048 fails with `trace_too_long`
and changes nothing; otherwise with 25 or more traces recorded it fails
with `too_many_traces` and changes nothing; otherwise exactly one line
(`ref`, `reg`, `ua`, `msg`) is appended to the configured log, the counter
increments by one and the reply is `Traced`. -/
theorem c7_trace (players : List PlayerData) (pid : Nat) (message : String)
    (file : List TraceLine) (infoLog : List String) (p : PlayerData) (c : Client)
    (hp : findPlayer players pid = some p) (hc : p.client = some c) :
    (2048 < message.length →
        trace true true players pid message file infoLog
          = ⟨players, file, infoLog, .error .traceTooLong⟩)
    ∧ (message.length ≤ 2048 → 25 ≤ c.traces →
        trace true true players pid message file infoLog
          = ⟨players, file, infoLog, .error .tooManyTraces⟩)
    ∧ (message.length ≤ 2048 → c.traces < 25 →
        (trace true true players pid message file infoLog).file
            = file ++ [⟨c.metrics.referrer, c.metrics.region_id,
                        c.metrics.user_agent_id, message⟩]
          ∧ tracesOf (trace true true players pid message file infoLog).players pid
              = some (c.traces + 1)
          ∧ (trace true true players pid message file infoLog).reply
              = .ok .traced) := by
  refine ⟨?_, ?_, ?_⟩
  · intro hlen
    simp [trace, hp, hc, hlen]
  · intro hlen htr
    simp [trace, hp, hc, Nat.not_lt.mpr hlen, Nat.not_lt.mpr htr]
  · intro hlen htr
    refine ⟨?_, ?_, ?_⟩
    · simp [trace, hp, hc, Nat.not_lt.mpr hlen, htr]
    · simp only [trace, hp, hc, if_neg (Nat.not_lt.mpr hlen), if_pos htr]
      simp [tracesOf, findClient, findPlayer_modifyClient, hp, hc]
    · simp [trace, hp, hc, Nat.not_lt.mpr hlen, htr]

theorem c7_trace_witness :
    (trace true true w5players 1 "oops" [] []).file
        = [⟨none, none, none, "oops"⟩]
    ∧ tracesOf (trace true true w5players 1 "oops" [] []).players 1 = some 1
    ∧ (trace true true w5players 1 "oops" [] []).reply = .ok .traced :=
  (c7_trace w5players 1 "oops" [] []
      { player_id := 1, alive_duration := none,
        client := some { baseClient with status := ClientStatus.connected 3 } }
      { baseClient with status := ClientStatus.connected 3 }
      (by rfl) (by rfl)).2.2 (by decide) (by decide)

/-- C10: when the message fits and fewer than 25 traces were recorded,
`trace` increments the counter and replies `Traced` no matter whether the
configured trace file can be opened or written; the I/O failure is only
logged and no error reaches the client. -/
theorem c10_trace_resilient (cfg ioOk : Bool) (players : List PlayerData) (pid : Nat)
    (message : String) (file : List TraceLine) (infoLog : List String)
    (p : PlayerData) (c : Client)
    (hp : findPlayer players pid = some p) (hc : p.client = some c)
    (hlen : message.length ≤ 2048) (htr : c.traces < 25) :
    (trace cfg ioOk players pid message file infoLog).reply = .ok .traced
    ∧ tracesOf (trace cfg ioOk players pid message file infoLog).players pid
        = some (c.traces + 1) := by
  constructor
  · simp [trace, hp, hc, Nat.not_lt.mpr hlen, htr]
  · simp only [trace, hp, hc, if_neg (Nat.not_lt.mpr hlen), if_pos htr]
    simp [tracesOf, findClient, findPlayer_modifyClient, hp, hc]

theorem c10_trace_resilient_witness :
    (trace true false w5players 1 "oops" [] []).reply = .ok .traced
    ∧ tracesOf (trace true false w5players 1 "oops" [] []).players 1 = some 1 :=
  c10_trace_resilient true false w5players 1 "oops" [] []
    { player_id := 1, alive_duration := none,
      client := some { baseClient with status := ClientStatus.connected 3 } }
    { baseClient with status := ClientStatus.connected 3 }
    (by rfl) (by rfl) (by decide) (by decide)

/-- Infrastructure context the persister reads. -/
structure DbCtx where
  server_id : Option Nat
  database_read_only : Bool
  arena_id : Nat
  game_id : Nat
  deriving Repr

/-- Modelled from the spec: the database `RateLimiter::new(30 s, 0)` (its
source, server_util/rate_limiter.rs, is not provided): a single token —
writes are inhibited unless at least 30 seconds have passed since the last
allowed invocation, which consumes the token. -/
def shouldLimitDb (lastAllowed : Option Nat) (now : Nat) : Bool :=
  match lastAllowed with
  | none => false
  | some t => decide (now < t + 30)

/-- Mocked server id when the database is read only (`ServerId::new(200)`),
else the real one; `None` aborts the sweep. -/
def resolvedServerId (ctx : DbCtx) : Option Nat :=
  match ctx.server_id with
  | some s => some s
  | none => if ctx.database_read_only then some 200 else none

/-- The candidate `SessionItem` built for one client in
`ClientRepo::update_to_database`. -/
def candidateItem (ctx : DbCtx) (sid : Nat) (pid : Nat) (c : Client) :
    SessionItem :=
  { aliasName := c.aliasName, arena_id := ctx.arena_id,
    date_created := c.metrics.date_created,
    date_previous := c.metrics.date_previous,
    date_renewed := c.metrics.date_renewed, date_terminated := none,
    game_id := ctx.game_id, player_id := pid,
    plays := c.metrics.plays + c.metrics.previous_plays,
    previous_id := c.metrics.session_id_previous,
    referrer := c.metrics.referrer, user_agent_id := c.metrics.user_agent_id,
    server_id := sid, session_id := c.session_id }

/-- The per-client loop of `update_to_database`: when the stored
`session_item` differs from the candidate, store the candidate in the
record and (unless read only) enqueue a `put_session` write. -/
def persistClients (ctx : DbCtx) (sid : Nat) :
    List PlayerData → List PlayerData × List SessionItem
  | [] => ([], [])
  | p :: rest =>
      let pr := persistClients ctx sid rest
      match p.client with
      | none => (p :: pr.1, pr.2)
      | some c =>
          let cand := candidateItem ctx sid p.player_id c
          if c.session_item = some cand then (p :: pr.1, pr.2)
          else
            ({ p with client := some { c with session_item := some cand } } :: pr.1,
             (if ctx.database_read_only then [] else [cand]) ++ pr.2)

/-- Result of one persister sweep. -/
structure DbRun where
  players : List PlayerData
  limiterLast : Option Nat
  writes : List SessionItem
  deriving Repr

/-- Embeds `ClientRepo::update_to_database`. -/
def update_to_database (ctx : DbCtx) (players : List PlayerData)
    (limiterLast : Option Nat) (now : Nat) : DbRun :=
  if shouldLimitDb limiterLast now then ⟨players, limiterLast, []⟩
  else
    match resolvedServerId ctx with
    | none => ⟨players, some now, []⟩
    | some sid =>
        let pr := persistClients ctx sid players
        ⟨pr.1, some now, pr.2⟩

theorem persistClients_cons_none (ctx : DbCtx) (sid : Nat) (p : PlayerData)
    (rest : List PlayerData) (hc : p.client = none) :
    persistClients ctx sid (p :: rest)
      = (p :: (persistClients ctx sid rest).1, (persistClients ctx sid rest).2) := by
  simp [persistClients, hc]

theorem persistClients_cons_eq (ctx : DbCtx) (sid : Nat) (p : PlayerData)
    (rest : List PlayerData) (c : Client) (hc : p.client = some c)
    (hd : c.session_item = some (candidateItem ctx sid p.player_id c)) :
    persistClients ctx sid (p :: rest)
      = (p :: (persistClients ctx sid rest).1, (persistClients ctx sid rest).2) := by
  simp [persistClients, hc, hd]

theorem persistClients_cons_ne (ctx : DbCtx) (sid : Nat) (p : PlayerData)
    (rest : List PlayerData) (c : Client) (hc : p.client = some c)
    (hd : ¬ c.session_item = some (candidateItem ctx sid p.player_id c)) :
    persistClients ctx sid (p :: rest)
      = ({ p with client := some { c with session_item := some (candidateItem ctx sid p.player_id c) } }
           :: (persistClients ctx sid rest).1,
         (if ctx.database_read_only then [] else [candidateItem ctx sid p.player_id c])
           ++ (persistClients ctx sid rest).2) := by
  simp [persistClients, hc, hd]

theorem persistClients_writes (ctx : DbCtx) (sid : Nat)
    (hro : ctx.database_read_only = false) (players : List PlayerData) :
    (persistClients ctx sid players).2
      = players.filterMap (fun p => p.client.bind (fun c =>
          if c.session_item = some (candidateItem ctx sid p.player_id c) then none
          else some (candidateItem ctx sid p.player_id c))) := by
  induction players with
  | nil => rfl
  | cons p rest ih =>
      rw [List.filterMap_cons]
      cases hc : p.client with
      | none =>
          rw [persistClients_cons_none ctx sid p rest hc]
          simpa using ih
      | some c =>
          by_cases hd : c.session_item = some (candidateItem ctx sid p.player_id c)
          · rw [persistClients_cons_eq ctx sid p rest c hc hd]
            simp [hc, hd, ih]
          · rw [persistClients_cons_ne ctx sid p rest c hc hd]
            simp [hc, hd, hro, ih]

theorem candidateItem_session_item (ctx : DbCtx) (sid pid : Nat) (c : Client)
    (item : Option SessionItem) :
    candidateItem ctx sid pid { c with session_item := item }
      = candidateItem ctx sid pid c := rfl

theorem persistClients_post (ctx : DbCtx) (sid : Nat) (players : List PlayerData) :
    ∀ p ∈ (persistClients ctx sid players).1, ∀ c, p.client = some c →
      c.session_item = some (candidateItem ctx sid p.player_id c) := by
  induction players with
  | nil => intro p hp; simp [persistClients] at hp
  | cons p rest ih =>
      intro q hq c hcq
      cases hc : p.client with
      | none =>
          rw [persistClients_cons_none ctx sid p rest hc] at hq
          simp only [List.mem_cons] at hq
          rcases hq with hq | hq
          · subst hq; rw [hcq] at hc; exact absurd hc (by simp)
          · exact ih q hq c hcq
      | some c0 =>
          by_cases hd : c0.session_item = some (candidateItem ctx sid p.player_id c0)
          · rw [persistClients_cons_eq ctx sid p rest c0 hc hd] at hq
            simp only [List.mem_cons] at hq
            rcases hq with hq | hq
            · subst hq
              rw [hcq] at hc
              have hcc : c = c0 := Option.some.inj hc
              subst hcc
              exact hd
            · exact ih q hq c hcq
          · rw [persistClients_cons_ne ctx sid p rest c0 hc hd] at hq
            simp only [List.mem_cons] at hq
            rcases hq with hq | hq
            · subst hq
              have hcc :
                  c = { c0 with session_item := some (candidateItem ctx sid p.player_id c0) } :=
                (Option.some.inj hcq).symm
              subst hcc
              rfl
            · exact ih q hq c hcq

theorem persistClients_no_writes (ctx : DbCtx) (sid : Nat)
    (players : List PlayerData)
    (h : ∀ p ∈ players, ∀ c, p.client = some c →
        c.session_item = some (candidateItem ctx sid p.player_id c)) :
    (persistClients ctx sid players).2 = [] := by
  induction players with
  | nil => rfl
  | cons p rest ih =>
      cases hc : p.client with
      | none =>
          rw [persistClients_cons_none ctx sid p rest hc]
          exact ih (fun q hq => h q (List.mem_cons_of_mem p hq))
      | some c =>
          have hd := h p (List.mem_cons_self p rest) c hc
          rw [persistClients_cons_eq ctx sid p rest c hc hd]
          exact ih (fun q hq => h q (List.mem_cons_of_mem p hq))

/-- C6: an (enabled, writable) persister sweep writes the candidate
`SessionItem` of a client exactly when the stored `session_item` differs from
it (full structural equality), storing the candidate in the record; a
second sweep immediately after, with no intervening state change, performs
zero writes. -/
theorem c6_diff_suppression (ctx : DbCtx) (players : List PlayerData)
    (limiterLast : Option Nat) (now1 now2 sid : Nat)
    (hro : ctx.database_read_only = false)
    (hsid : resolvedServerId ctx = some sid)
    (h1 : shouldLimitDb limiterLast now1 = false) :
    (update_to_database ctx players limiterLast now1).writes
      = players.filterMap (fun p => p.client.bind (fun c =>
          if c.session_item = some (candidateItem ctx sid p.player_id c) then none
          else some (candidateItem ctx sid p.player_id c)))
    ∧ (∀ p ∈ (update_to_database ctx players limiterLast now1).players,
        ∀ c, p.client = some c →
          c.session_item = some (candidateItem ctx sid p.player_id c))
    ∧ (update_to_database ctx
        (update_to_database ctx players limiterLast now1).players
        (update_to_database ctx players limiterLast now1).limiterLast
        now2).writes = [] := by
  have hrun : update_to_database ctx players limiterLast now1
      = ⟨(persistClients ctx sid players).1, some now1,
         (persistClients ctx sid players).2⟩ := by
    simp [update_to_database, h1, hsid]
  refine ⟨?_, ?_, ?_⟩
  · rw [hrun]
    exact persistClients_writes ctx sid hro players
  · rw [hrun]
    exact persistClients_post ctx sid players
  · rw [hrun]
    simp only [update_to_database]
    by_cases h2 : shouldLimitDb (some now1) now2
    · rw [if_pos h2]
    · rw [if_neg h2, hsid]
      simp only []
      exact persistClients_no_writes ctx sid _ (persistClients_post ctx sid players)

def w6ctx : DbCtx :=
  { server_id := some 1, database_read_only := false, arena_id := 4, game_id := 2 }

theorem c6_diff_suppression_witness :
    (update_to_database w6ctx w5players none 0).writes
      = [candidateItem w6ctx 1 1 { baseClient with status := ClientStatus.connected 3 }]
    ∧ (update_to_database w6ctx
        (update_to_database w6ctx w5players none 0).players
        (update_to_database w6ctx w5players none 0).limiterLast 40).writes = [] := by
  have h := c6_diff_suppression w6ctx w5players none 0 40 1 rfl rfl rfl
  exact ⟨by rw [h.1]; rfl, h.2.2⟩

/-- The `Authenticate` message. -/
structure AuthMsg where
  ip : Option Nat
  user_agent_id : Option Nat
  referrer : Option Nat
  arena_session : Option (Nat × Nat)
  invitation_id : Option Nat
  deriving Repr

/-- Environment of the `Authenticate` handler: the current arena, the
durable store (`get_session`, an oracle keyed by arena and session id; the
`Err(_)` result of a failed read behaves as `None` here, as the handler
only matches `Ok(Some(_))`), and the streams of ids `generate_id_64` /
`generate_id` would produce. -/
structure AuthEnv where
  arena_id : Nat
  db : Nat → Nat → Option SessionItem
  sessionRng : List Nat
  playerRng : List Nat

/-- The session ids of every current client record. -/
def sessionIdsOf (players : List PlayerData) : List Nat :=
  players.filterMap (fun p => p.client.map (·.session_id))

/-- Step 2 of the handler: when the presented arena matches, scan in-memory
clients for the presented session id and reuse `(session_id, player_id)`. -/
def cachedLookup (arena_id : Nat) (players : List PlayerData)
    (arenaSession : Option (Nat × Nat)) : Option (Nat × Nat) :=
  match arenaSession with
  | none => none
  | some (a, s) =>
      if a = arena_id then
        (players.find? (fun p =>
            match p.client with
            | some c => decide (c.session_id = s)
            | none => false)).map (fun p => (s, p.player_id))
      else none

/-- The store read: performed only when the in-memory scan found nothing
and credentials were presented. -/
def dbLookup (env : AuthEnv) (players : List PlayerData)
    (arenaSession : Option (Nat × Nat)) : Option SessionItem :=
  if (cachedLookup env.arena_id players arenaSession).isSome then none
  else
    match arenaSession with
    | some (a, s) => env.db a s
    | none => none

/-- The allocation loops: draw a session id until it is unique among
current clients, then a player id until it is absent from the table.  A
`none` result models the source loop never finding a fresh id within the
provided stream. -/
def allocateIds (players : List PlayerData) (sessionRng playerRng : List Nat) :
    Option (Nat × Nat) :=
  match sessionRng.find? (fun s => decide (s ∉ sessionIdsOf players)) with
  | none => none
  | some s =>
      match playerRng.find? (fun q => (findPlayer players q).isNone) with
      | none => none
      | some q => some (s, q)

/-- Modelled from the spec: `ClientMetricData::from(&msg)` (metric.rs is not
among the provided sources) — record referrer, user agent and the
creation/renewal timestamps. -/
def mkMetrics (msg : AuthMsg) (now : Nat) : Metrics :=
  { date_created := now, date_previous := none, date_renewed := now,
    session_id_previous := none, referrer := msg.referrer,
    user_agent_id := msg.user_agent_id, region_id := none, plays := 0,
    previous_plays := 0, fps := none, rtt := none }

/-- Modelled from the spec: `ClientMetricData::supplement(&session_item)`
(metric.rs is not among the provided sources) — supplement metrics with the
fields of the prior session. -/
def supplementMetrics (m : Metrics) (item : SessionItem) : Metrics :=
  { m with date_created := item.date_created,
           date_previous := some item.date_renewed,
           previous_plays := item.plays,
           session_id_previous := some item.session_id }

/-- Modelled from the spec: the game-defined `default_alias()`. -/
def defaultAlias : String := "Guest"

/-- Embeds `PlayerClientData::new`: fresh record in `Pending{now + 10 s}`. -/
def newClient (session_id : Nat) (m : Metrics) (now : Nat) : Client :=
  { session_id := session_id, aliasName := defaultAlias,
    status := ClientStatus.pending (now + 10), session_item := none,
    metrics := m, reported := [], traces := 0, chatState := false,
    teamState := false, gameData := 0 }

/-- The occupied branch of the entry match: only bump
`metrics.date_renewed` on the existing client. -/
def bumpRenewed (players : List PlayerData) (pid now : Nat) : List PlayerData :=
  modifyClient players pid
    (fun c => { c with metrics := { c.metrics with date_renewed := now } })

/-- Outcome of `Authenticate`: rate limited, the allocation loop finding no
fresh id in the provided stream (the source would spin), or success with
the updated table and resolved player id. -/
inductive AuthOut where
  | rateLimited
  | diverge
  | ok (players : List PlayerData) (player_id : Nat)
  deriving Repr

/-- Embeds `Handler<Authenticate>::handle`; `ipLimited` is the verdict of the IP
rate limiter (server_util/ip_rate_limiter.rs is not among the provided
sources; only its boolean answer is observed, and only when an ip is
present). -/
def resolveCredentials (env : AuthEnv) (players : List PlayerData)
    (msg : AuthMsg) (now : Nat) : Option (Nat × Nat × Metrics) :=
  match cachedLookup env.arena_id players msg.arena_session with
  | some (s, q) => some (s, q, mkMetrics msg now)
  | none =>
      match dbLookup env players msg.arena_session with
      | some item =>
          some (item.session_id, item.player_id,
                supplementMetrics (mkMetrics msg now) item)
      | none =>
          (allocateIds players env.sessionRng env.playerRng).map
            (fun sq => (sq.1, sq.2, mkMetrics msg now))

/-- The record inserted on the vacant branch:
`PlayerData::new(player_id, Some(Box::new(client)))`. -/
def newPlayerRecord (q : Nat) (c : Client) : PlayerData :=
  { player_id := q, alive_duration := none, client := some c }

def authenticate (env : AuthEnv) (players : List PlayerData) (msg : AuthMsg)
    (ipLimited : Bool) (now : Nat) : AuthOut :=
  if msg.ip.isSome && ipLimited then .rateLimited
  else
    match resolveCredentials env players msg now with
    | none => .diverge
    | some (s, q, m) =>
        match findPlayer players q with
        | some _ => .ok (bumpRenewed players q now) q
        | none => .ok (players ++ [newPlayerRecord q (newClient s m now)]) q

theorem sessionIdsOf_cons_none (p : PlayerData) (rest : List PlayerData)
    (hc : p.client = none) :
    sessionIdsOf (p :: rest) = sessionIdsOf rest := by
  simp [sessionIdsOf, List.filterMap_cons, hc]

theorem sessionIdsOf_cons_some (p : PlayerData) (rest : List PlayerData)
    (c : Client) (hc : p.client = some c) :
    sessionIdsOf (p :: rest) = c.session_id :: sessionIdsOf rest := by
  simp [sessionIdsOf, List.filterMap_cons, hc]

theorem sessionIdsOf_append (l1 l2 : List PlayerData) :
    sessionIdsOf (l1 ++ l2) = sessionIdsOf l1 ++ sessionIdsOf l2 := by
  simp [sessionIdsOf, List.filterMap_append]

theorem sessionIdsOf_modifyClient (players : List PlayerData) (pid : Nat)
    (f : Client → Client) (h : ∀ c, (f c).session_id = c.session_id) :
    sessionIdsOf (modifyClient players pid f) = sessionIdsOf players := by
  induction players with
  | nil => rfl
  | cons p rest ih =>
      simp only [modifyClient]
      by_cases hp : p.player_id = pid
      · rw [if_pos hp]
        cases hc : p.client with
        | none =>
            rw [sessionIdsOf_cons_none _ _ (by simp [hc]),
                sessionIdsOf_cons_none _ _ hc]
        | some c =>
            rw [sessionIdsOf_cons_some _ _ (f c) (by simp [hc]),
                sessionIdsOf_cons_some _ _ c hc, h c]
      · rw [if_neg hp]
        cases hc : p.client with
        | none =>
            rw [sessionIdsOf_cons_none _ _ hc, sessionIdsOf_cons_none _ _ hc, ih]
        | some c =>
            rw [sessionIdsOf_cons_some _ _ c hc, sessionIdsOf_cons_some _ _ c hc, ih]

theorem findPlayer_isSome_of_mem (players : List PlayerData) (p : PlayerData)
    (h : p ∈ players) : (findPlayer players p.player_id).isSome := by
  induction players with
  | nil => cases h
  | cons a rest ih =>
      rcases List.mem_cons.mp h with hpa | hmem
      · subst hpa
        simp [findPlayer]
      · by_cases ha : a.player_id = p.player_id
        · simp [findPlayer, ha]
        · simp [findPlayer, ha, ih hmem]

theorem cachedLookup_findPlayer (arena : Nat) (players : List PlayerData)
    (arenaSession : Option (Nat × Nat)) (s q : Nat)
    (h : cachedLookup arena players arenaSession = some (s, q)) :
    (findPlayer players q).isSome := by
  cases arenaSession with
  | none => simp [cachedLookup] at h
  | some p0 =>
      obtain ⟨a, s1⟩ := p0
      simp only [cachedLookup] at h
      by_cases ha : a = arena
      · rw [if_pos ha] at h
        cases hf : players.find? (fun p =>
            match p.client with
            | some c => decide (c.session_id = s1)
            | none => false) with
        | none => rw [hf] at h; exact absurd h (by simp)
        | some p =>
            rw [hf] at h
            have hm := List.mem_of_find?_eq_some hf
            have hqq : q = p.player_id :=
              (congrArg Prod.snd (Option.some.inj h)).symm
            rw [hqq]
            exact findPlayer_isSome_of_mem players p hm
      · rw [if_neg ha] at h
        exact absurd h (by simp)

theorem allocateIds_fresh (players : List PlayerData) (r1 r2 : List Nat)
    (s q : Nat) (h : allocateIds players r1 r2 = some (s, q)) :
    s ∉ sessionIdsOf players ∧ findPlayer players q = none := by
  unfold allocateIds at h
  cases h1 : r1.find? (fun s => decide (s ∉ sessionIdsOf players)) with
  | none => rw [h1] at h; exact absurd h (by simp)
  | some s0 =>
      rw [h1] at h
      cases h2 : r2.find? (fun q => (findPlayer players q).isNone) with
      | none => rw [h2] at h; exact absurd h (by simp)
      | some q0 =>
          rw [h2] at h
          have hinj := Option.some.inj h
          have hs : s0 = s := congrArg Prod.fst hinj
          have hq : q0 = q := congrArg Prod.snd hinj
          subst hs; subst hq
          have hp1 := List.find?_some h1
          have hp2 := List.find?_some h2
          refine ⟨by simpa using hp1, by simpa using hp2⟩

def cexItem : SessionItem :=
  { aliasName := "g", arena_id := 1, date_created := 0, date_previous := none,
    date_renewed := 0, date_terminated := none, game_id := 2, player_id := 2,
    plays := 3, previous_id := none, referrer := none, user_agent_id := none,
    server_id := 1, session_id := 7 }

/-- A store consistent with its keys: arena 1 holds a session 7 owned by
player 2. -/
def cexEnv : AuthEnv :=
  { arena_id := 0,
    db := fun a s => if a = 1 ∧ s = 7 then some cexItem else none,
    sessionRng := [5], playerRng := [9] }

def cexPlayers : List PlayerData :=
  [{ player_id := 1, alive_duration := none,
     client := some { baseClient with session_id := 7 } }]

def cexMsg : AuthMsg :=
  { ip := none, user_agent_id := none, referrer := none,
    arena_session := some (1, 7), invitation_id := none }

def authPlayersOf : AuthOut → List PlayerData
  | .ok ps _ => ps
  | _ => []

def authIsOk : AuthOut → Bool
  | .ok _ _ => true
  | _ => false

/-- Counterexample to **C9**: presenting credentials from another arena
skips the in-memory scan, the store restore resolves to a fresh player id,
and the handler inserts the restored `session_id` without any uniqueness
check — a coexisting client (player 1) already holds session id 7, and the
insert duplicates it. -/
theorem c9_counterexample :
    (sessionIdsOf cexPlayers).Nodup
    ∧ authIsOk (authenticate cexEnv cexPlayers cexMsg false 0) = true
    ∧ ¬ (sessionIdsOf
          (authPlayersOf (authenticate cexEnv cexPlayers cexMsg false 0))).Nodup := by
  refine ⟨by decide, by rfl, by decide⟩

/-- C9 (amended): `Authenticate` preserves session-id uniqueness on the
cached-reuse path (the resolved player already exists, so only
`date_renewed` is bumped), on the fresh-allocation path (both ids are drawn
until unique among current clients) and whenever the resolved player id is
occupied; on the store-restore path it preserves uniqueness provided the
restored `session_id` of the item is not already held by a coexisting client —
that path performs no uniqueness check of its own. -/
theorem c9_unique_sessions (env : AuthEnv) (players : List PlayerData)
    (msg : AuthMsg) (ipLimited : Bool) (now : Nat)
    (hU : (sessionIdsOf players).Nodup)
    (hdb : ∀ item, dbLookup env players msg.arena_session = some item →
        findPlayer players item.player_id = none →
        item.session_id ∉ sessionIdsOf players) :
    ∀ ps pid, authenticate env players msg ipLimited now = .ok ps pid →
      (sessionIdsOf ps).Nodup := by
  intro ps pid hok
  by_cases hip : (msg.ip.isSome && ipLimited) = true
  · rw [show authenticate env players msg ipLimited now = .rateLimited from by
        simp [authenticate, hip]] at hok
    exact absurd hok (by simp)
  · have hip' : (msg.ip.isSome && ipLimited) = false := by
      revert hip; cases msg.ip.isSome && ipLimited <;> simp
    cases hres : resolveCredentials env players msg now with
    | none =>
        rw [show authenticate env players msg ipLimited now = .diverge from by
            simp [authenticate, hip', hres]] at hok
        exact absurd hok (by simp)
    | some t =>
        obtain ⟨s, q, m⟩ := t
        cases hq : findPlayer players q with
        | some p =>
            rw [show authenticate env players msg ipLimited now
                = .ok (bumpRenewed players q now) q from by
                simp [authenticate, hip', hres, hq]] at hok
            have hps : bumpRenewed players q now = ps := by injection hok
            subst hps
            unfold bumpRenewed
            rw [sessionIdsOf_modifyClient players q
              (fun c => { c with metrics := { c.metrics with date_renewed := now } })
              (fun c => rfl)]
            exact hU
        | none =>
            rw [show authenticate env players msg ipLimited now
                = .ok (players ++ [newPlayerRecord q (newClient s m now)]) q from by
                simp [authenticate, hip', hres, hq]] at hok
            have hps : players ++ [newPlayerRecord q (newClient s m now)] = ps := by
              injection hok
            subst hps
            have hids : sessionIdsOf (players ++ [newPlayerRecord q (newClient s m now)])
                = sessionIdsOf players ++ [s] := by
              rw [sessionIdsOf_append, sessionIdsOf_cons_some _ _ (newClient s m now) rfl]
              rfl
            rw [hids]
            have hnotin : s ∉ sessionIdsOf players := by
              unfold resolveCredentials at hres
              cases hcache : cachedLookup env.arena_id players msg.arena_session with
              | some sq =>
                  obtain ⟨s0, q0⟩ := sq
                  rw [hcache] at hres
                  have hinj := Option.some.inj hres
                  have hq0 : q0 = q := congrArg (fun x => Prod.fst (Prod.snd x)) hinj
                  have hsome := cachedLookup_findPlayer env.arena_id players
                    msg.arena_session s0 q0 hcache
                  rw [hq0, hq] at hsome
                  exact absurd hsome (by simp)
              | none =>
                  rw [hcache] at hres
                  cases hdbl : dbLookup env players msg.arena_session with
                  | some item =>
                      rw [hdbl] at hres
                      have hinj := Option.some.inj hres
                      have hs0 : item.session_id = s := congrArg Prod.fst hinj
                      have hq0 : item.player_id = q :=
                        congrArg (fun x => Prod.fst (Prod.snd x)) hinj
                      rw [← hs0]
                      exact hdb item hdbl (by rw [hq0]; exact hq)
                  | none =>
                      rw [hdbl] at hres
                      cases halloc : allocateIds players env.sessionRng env.playerRng with
                      | none => rw [halloc] at hres; exact absurd hres (by simp)
                      | some sq =>
                          rw [halloc] at hres
                          have hinj := Option.some.inj hres
                          have hs0 : sq.1 = s := congrArg Prod.fst hinj
                          have hq0 : sq.2 = q :=
                            congrArg (fun x => Prod.fst (Prod.snd x)) hinj
                          have halloc2 : allocateIds players env.sessionRng env.playerRng
                              = some (s, q) := by
                            rw [halloc, ← hs0, ← hq0]
                          exact (allocateIds_fresh players env.sessionRng env.playerRng
                            s q halloc2).1
            rw [List.nodup_append]
            refine ⟨hU, List.nodup_singleton s, ?_⟩
            intro x hx hx2
            rcases List.mem_singleton.mp hx2 with rfl
            exact hnotin hx

def w9env : AuthEnv :=
  { arena_id := 0, db := fun _ _ => none, sessionRng := [7], playerRng := [2] }

def w9msg : AuthMsg :=
  { ip := none, user_agent_id := none, referrer := none,
    arena_session := none, invitation_id := none }

theorem c9_unique_sessions_witness :
    (sessionIdsOf
      (w5players ++ [newPlayerRecord 2 (newClient 7 (mkMetrics w9msg 0) 0)])).Nodup :=
  c9_unique_sessions w9env w5players w9msg false 0 (by decide)
    (by intro item hitem _
        simp [dbLookup, cachedLookup, w9msg] at hitem)
    (w5players ++ [newPlayerRecord 2 (newClient 7 (mkMetrics w9msg 0) 0)]) 2 (by rfl)

end GameServer
